import Mathlib

set_option maxRecDepth 100000

/-!
Verification development for the trade-tracker repository (`src/Reader.py`).

The engine of the repository is `Reader.py`: it turns extracted broker-PDF
text into trade records (three format parsers), merges duplicate reports of
the same trade, sorts them, and applies them to a spreadsheet ledger.  This
file is a shallow embedding of that code:

* Python `float` values are modelled by the exact rational type `Q` below;
  every numeric literal appearing in the program is an exact decimal, so the
  decimal arithmetic the program performs (parsing, `abs`, sums, one guarded
  division) is represented exactly.  IEEE artefacts (negative zero, binary
  rounding of `"%.4f"`) are outside the model and are noted where relevant.
* Python strings are Lean `String`s; all string operations are re-implemented
  over `List Char` so that they compute by kernel reduction (`decide`/`rfl`).
  ASCII case mapping models `str.lower` (the ledger data is ASCII).
* The regular expressions of `Reader.py` are embedded via a small
  backtracking matcher (`Rx`/`mrun`) whose alternative ordering mirrors
  Python `re` (leftmost match, greedy quantifiers, ordered alternation);
  each `Rx` value below is written next to the regex literal it embeds.
* File-system and spreadsheet I/O (pdfminer, openpyxl) are external
  collaborators: a PDF is a `PdfDoc` (name plus extracted text, `none`
  modelling an extraction error), the workbook is a `List Row`, and `print`
  calls are modelled as emitted `LogMsg` values.
-/

/-! ## Basic character/string helpers (Python semantics) -/

/-- Python regex `\s` and `str.strip`/`str.split` whitespace, ASCII fragment:
space, tab, newline, carriage return, vertical tab, form feed. -/
def isPySpace (c : Char) : Bool :=
  c = ' ' || c = '\t' || c = '\n' || c = '\r' || c = '\x0b' || c = '\x0c'

/-- ASCII lower-casing of one character (models `str.lower` on ASCII data;
non-ASCII characters are left unchanged). -/
def lowerChar (c : Char) : Char :=
  if 'A' ≤ c ∧ c ≤ 'Z' then Char.ofNat (c.toNat + 32) else c

/-- ASCII upper-casing of one character. -/
def upperChar (c : Char) : Char :=
  if 'a' ≤ c ∧ c ≤ 'z' then Char.ofNat (c.toNat - 32) else c

/-- `str.lower` (ASCII fragment). -/
def lowerStr (s : String) : String := String.mk (s.toList.map lowerChar)

/-- `str.capitalize`: first character upper-cased, the rest lower-cased. -/
def pyCapitalize (s : String) : String :=
  match s.toList with
  | [] => ""
  | c :: rest => String.mk (upperChar c :: rest.map lowerChar)

/-- `str.strip()` (whitespace from both ends). -/
def pyStrip (s : String) : String :=
  String.mk (((s.toList.dropWhile isPySpace).reverse.dropWhile isPySpace).reverse)

/-- If `w` is an initial segment of `cs`, the remainder of `cs`; otherwise none. -/
def dropLit? : List Char → List Char → Option (List Char)
  | [], cs => some cs
  | _ :: _, [] => none
  | a :: w, c :: cs => if a = c then dropLit? w cs else none

/-- Case-insensitive variant of `dropLit?` (ASCII, models `re.IGNORECASE`). -/
def dropLitCI? : List Char → List Char → Option (List Char)
  | [], cs => some cs
  | _ :: _, [] => none
  | a :: w, c :: cs => if lowerChar a = lowerChar c then dropLitCI? w cs else none

/-- Python `str.find` on character lists: index of the first occurrence of
`needle`, or `none` (Python returns `-1`). -/
def findSub? (needle : List Char) : List Char → Option Nat
  | [] => if needle.isEmpty then some 0 else none
  | c :: rest =>
    if (dropLit? needle (c :: rest)).isSome then some 0
    else (findSub? needle rest).map (· + 1)

/-- Python `needle in hay` substring test. -/
def hasSub (needle : String) (hay : String) : Bool :=
  (findSub? needle.toList hay.toList).isSome

/-- One pass of Python `str.replace pat rep` (all non-overlapping occurrences,
left to right).  The fuel argument is the length of the list; it suffices
because every use in `Reader.py` has a non-empty pattern. -/
def replGo (pat rep : List Char) : Nat → List Char → List Char
  | 0, cs => cs
  | _ + 1, [] => []
  | f + 1, c :: cs =>
    match dropLit? pat (c :: cs) with
    | some rest => if rest.length < (c :: cs).length then rep ++ replGo pat rep f rest
                   else c :: replGo pat rep f cs
    | none => c :: replGo pat rep f cs

/-- Python `s.replace(pat, rep)` (with a non-empty pattern). -/
def replaceStr (s pat rep : String) : String :=
  String.mk (replGo pat.toList rep.toList s.toList.length s.toList)

/-- Python `str.splitlines()` on the `\n` / `\r\n` / `\r` line boundaries
used by the documents (the exotic Unicode boundaries are not modelled). -/
def splitlinesGo : List Char → List Char → List String
  | [], acc => if acc.isEmpty then [] else [String.mk acc.reverse]
  | '\r' :: '\n' :: cs, acc => String.mk acc.reverse :: splitlinesGo cs []
  | '\r' :: cs, acc => String.mk acc.reverse :: splitlinesGo cs []
  | '\n' :: cs, acc => String.mk acc.reverse :: splitlinesGo cs []
  | c :: cs, acc => splitlinesGo cs (c :: acc)

/-- Python `str.splitlines()`. -/
def splitlines (s : String) : List String := splitlinesGo s.toList []

/-- Python no-argument `str.split()`: split on whitespace runs, dropping
empty pieces. -/
def pySplitGo : List Char → List Char → List String
  | [], acc => if acc.isEmpty then [] else [String.mk acc.reverse]
  | c :: cs, acc =>
    if isPySpace c then
      if acc.isEmpty then pySplitGo cs [] else String.mk acc.reverse :: pySplitGo cs []
    else pySplitGo cs (c :: acc)

/-- Python `s.split()`. -/
def pySplit (s : String) : List String := pySplitGo s.toList []

/-- Python `str.isdigit` (ASCII fragment): non-empty and all digits. -/
def pyIsDigit (s : String) : Bool := ¬ s.toList.isEmpty && s.toList.all Char.isDigit

/-- Value of a list of decimal digit characters (most significant first),
as used by Python `int`/`float` on already-validated digit strings. -/
def natOfDigits (ds : List Char) : Nat :=
  ds.foldl (fun n c => 10 * n + (c.toNat - 48)) 0

/-- Decimal digit character for `d < 10`. -/
def digitChar (d : Nat) : Char := Char.ofNat (48 + d)

/-- Decimal digit characters of `n` (most significant first); fuel-based so
that it reduces in the kernel. -/
def natDigitsGo : Nat → Nat → List Char
  | 0, _ => []
  | f + 1, n => if n < 10 then [digitChar n] else natDigitsGo f (n / 10) ++ [digitChar (n % 10)]

/-- Decimal rendering of a natural number. -/
def natToDigits (n : Nat) : String := String.mk (natDigitsGo (n + 1) n)

/-- Remove all trailing occurrences of `c` (Python `str.rstrip(c)`). -/
def rstripChar (c : Char) (s : String) : String :=
  String.mk ((s.toList.reverse.dropWhile (· = c)).reverse)

/-- Python `s.split(sep)` for a one-character separator (keeps empty pieces;
`String.splitOn` is not used because it does not reduce in the kernel). -/
def splitOnCharGo (sep : Char) : List Char → List Char → List String
  | [], acc => [String.mk acc.reverse]
  | c :: cs, acc =>
    if c = sep then String.mk acc.reverse :: splitOnCharGo sep cs []
    else splitOnCharGo sep cs (c :: acc)

/-- Python `s.split(sep)` for a one-character separator. -/
def splitOnChar (sep : Char) (s : String) : List String := splitOnCharGo sep s.toList []

/-! ## Exact rationals

Python floats carry exact decimal values everywhere `Reader.py` computes with
them (decimal parsing, `abs`, sums, one guarded division).  They are modelled
by `Q`, rationals kept in lowest terms with a positive denominator, so that
structural (derived) equality coincides with value equality — mirroring how
Python compares the float values used as dictionary keys.  `Rat` is not used
because its arithmetic does not reduce inside the kernel. -/

structure Q where
  num : Int
  den : Nat
deriving DecidableEq, Repr

/-- Euclid's algorithm with explicit fuel (so that it reduces in the kernel). -/
def gcdFuel : Nat → Nat → Nat → Nat
  | 0, a, _ => a
  | f + 1, a, b => if b = 0 then a else gcdFuel f b (a % b)

/-- Greatest common divisor (fuel-based). -/
def qgcd (a b : Nat) : Nat := gcdFuel (b + 1) a b

/-- Normalised rational `n / d` (lowest terms, positive denominator). -/
def Q.norm (n : Int) (d : Nat) : Q :=
  if d = 0 then ⟨0, 1⟩
  else
    let g := qgcd n.natAbs d
    ⟨n / (g : Int), d / g⟩

def Q.zero : Q := ⟨0, 1⟩

def Q.ofNat (n : Nat) : Q := ⟨(n : Int), 1⟩

/-- Python `a + b` on exact decimals. -/
def Q.add (a b : Q) : Q :=
  Q.norm (a.num * (b.den : Int) + b.num * (a.den : Int)) (a.den * b.den)

/-- Python `abs`. -/
def Q.qabs (a : Q) : Q := ⟨(a.num.natAbs : Int), a.den⟩

/-- Python `a / b` (true division); the `b = 0` case is junk — `Reader.py`
only divides under a positivity guard (see claim C10). -/
def Q.div (a b : Q) : Q :=
  if b.num = 0 then ⟨0, 1⟩
  else if 0 ≤ b.num then Q.norm (a.num * (b.den : Int)) (a.den * b.num.natAbs)
  else Q.norm (-(a.num * (b.den : Int))) (a.den * b.num.natAbs)

/-- Python `a < b` on exact values (denominators are positive by construction). -/
def Q.blt (a b : Q) : Bool := a.num * (b.den : Int) < b.num * (a.den : Int)

/-! ## Python `float(text)`

`pyFloat?` models the built-in `float` constructor on the fragment the
program can feed it: optional surrounding whitespace, an optional sign, a
decimal mantissa (digits with at most one point, at least one digit), and an
optional exponent part.  `"inf"`, `"nan"` and digit-group underscores are
outside the modelled fragment (none can reach `float` through the numeric
regex character classes used by `Reader.py`).  A failing parse is `none`
(Python raises `ValueError`, which every caller turns into `0.0`). -/

def takeDigits (cs : List Char) : List Char × List Char :=
  (cs.takeWhile Char.isDigit, cs.dropWhile Char.isDigit)

/-- Sign prefix: `(negative?, rest)`. -/
def pySign : List Char → Bool × List Char
  | '-' :: cs => (true, cs)
  | '+' :: cs => (false, cs)
  | cs => (false, cs)

/-- Mantissa `digits [. digits]` or `. digits`: value as `(intPart, fracDigits)`. -/
def pyMantissa? (cs : List Char) : Option ((Nat × List Char) × List Char) :=
  let (ip, rest) := takeDigits cs
  match rest with
  | '.' :: rest2 =>
    let (fp, rest3) := takeDigits rest2
    if ip.isEmpty ∧ fp.isEmpty then none
    else some ((natOfDigits ip, fp), rest3)
  | _ => if ip.isEmpty then none else some ((natOfDigits ip, []), rest)

/-- Exponent part `e[sign]digits` (if present): `(exponent, rest)`. -/
def pyExponent? (cs : List Char) : Option (Int × List Char) :=
  match cs with
  | 'e' :: rest | 'E' :: rest =>
    let (neg, rest2) := pySign rest
    let (ds, rest3) := takeDigits rest2
    if ds.isEmpty then none
    else some ((if neg then -(natOfDigits ds : Int) else (natOfDigits ds : Int)), rest3)
  | _ => none

/-- `float(text)` on the modelled fragment. -/
def pyFloat? (s : String) : Option Q :=
  let cs := (s.toList.dropWhile isPySpace).reverse.dropWhile isPySpace |>.reverse
  let (neg, cs1) := pySign cs
  match pyMantissa? cs1 with
  | none => none
  | some ((ip, fp), rest) =>
    let (e, rest2) : Int × List Char :=
      match pyExponent? rest with
      | some (e, r) => (e, r)
      | none => (0, rest)
    if ¬ rest2.isEmpty then none
    else
      let n : Int := (ip * 10 ^ fp.length + natOfDigits fp : Nat)
      let n := if neg then -n else n
      if 0 ≤ e then Q.norm (n * (10 : Int) ^ e.natAbs) (10 ^ fp.length)
      else Q.norm n (10 ^ fp.length * 10 ^ e.natAbs)

/-! ## `parse_german_float` (Reader.py lines 15–45) -/

/-- Currency/whitespace clean-up at the head of `parse_german_float`:
`text.replace('EUR','').replace('USD','').replace('€','').replace('$','').strip()`. -/
def stripCurrency (s : String) : String :=
  pyStrip (replaceStr (replaceStr (replaceStr (replaceStr s "EUR" "") "USD" "") "€" "") "$" "")

/-- Python `text.find(c)` for a character, on a string known to contain it;
returns the string length when absent (only compared when both are present). -/
def firstIdxChar (c : Char) (s : String) : Nat := s.toList.findIdx (· = c)

/-- Python `c in text`. -/
def containsChar (c : Char) (s : String) : Bool := s.toList.contains c

/-- `parse_german_float` from `Reader.py`: normalises German (`1.234,56`) or
English (`1,234.56`) numeric text and converts to a float, with `0.0` for
empty or unparseable input. -/
def parse_german_float (text : String) : Q :=
  if text = "" then Q.zero
  else
    let t := stripCurrency text
    let t :=
      if containsChar ',' t ∧ containsChar '.' t then
        if firstIdxChar '.' t < firstIdxChar ',' t then
          replaceStr (replaceStr t "." "") "," "."
        else
          replaceStr t "," ""
      else if containsChar ',' t then replaceStr t "," "."
      else t
    match pyFloat? t with
    | some q => q
    | none => Q.zero

/-- Modelled from the spec: the NumericNormalizer algorithm of §4.1, written
from the spec's words for the refinement half of claim C4 — strip currency
tokens and whitespace; when both `,` and `.` occur, the separator appearing
earlier in the string is the thousands separator and is removed while the
later one becomes the decimal point; a lone `,` is the decimal point;
unparseable text yields `0.0`. -/
def NumericNormalizer (text : String) : Q :=
  let t := stripCurrency text
  let t :=
    if containsChar ',' t ∧ containsChar '.' t then
      if firstIdxChar '.' t < firstIdxChar ',' t then
        replaceStr (replaceStr t "." "") "," "."
      else
        replaceStr t "," ""
    else if containsChar ',' t then replaceStr t "," "."
    else t
  match pyFloat? t with
  | some q => q
  | none => Q.zero

/-! ## A small regex matcher

`Rx` embeds exactly the constructs used by the regex literals of `Reader.py`:
literals (optionally case-insensitive), greedy character-class repetitions
`[..]{lo,hi}`, capture groups, ordered alternation, greedy option, and `$`.
`mrun` is a continuation-passing backtracking matcher whose search order
mirrors Python `re`: greedy quantifiers try the longest extent first,
alternation tries its left branch first, and an optional piece tries to be
present first.  `reSearch` scans candidate start positions left to right
(`re.search`), `reSearchML` scans only line starts (`re.MULTILINE` with a
pattern anchored by `^`). -/

inductive Rx where
  | eps : Rx
  | lit : String → Rx
  | litCI : String → Rx
  | cls : (Char → Bool) → Nat → Option Nat → Rx
  | grp : Rx → Rx
  | alt : Rx → Rx → Rx
  | opt : Rx → Rx
  | seq : Rx → Rx → Rx
  | eol : Rx

/-- Try consuming `n, n-1, …` characters (the count of attempts is the first
argument), calling the continuation on each remainder; longest first, as a
greedy quantifier backtracks. -/
def mtry {α : Type} (k : List Char → List String → Option α) (cs : List Char)
    (caps : List String) : Nat → Nat → Option α
  | 0, _ => none
  | cnt + 1, n =>
    match k (cs.drop n) caps with
    | some r => some r
    | none => mtry k cs caps cnt (n - 1)

/-- Backtracking matcher: match `rx` at the head of the input, threading the
capture list, and give the remainder to the continuation. -/
def mrun {α : Type} : Rx → List Char → List String →
    (List Char → List String → Option α) → Option α
  | .eps, cs, caps, k => k cs caps
  | .lit w, cs, caps, k => (dropLit? w.toList cs).bind fun r => k r caps
  | .litCI w, cs, caps, k => (dropLitCI? w.toList cs).bind fun r => k r caps
  | .cls p lo hi, cs, caps, k =>
    let maxTake := (cs.takeWhile p).length
    let top := match hi with | some h => min h maxTake | none => maxTake
    if lo ≤ top then mtry k cs caps (top - lo + 1) top else none
  | .grp r, cs, caps, k =>
    mrun r cs caps fun rest caps2 =>
      k rest (caps2 ++ [String.mk (cs.take (cs.length - rest.length))])
  | .alt a b, cs, caps, k => (mrun a cs caps k).orElse fun _ => mrun b cs caps k
  | .opt r, cs, caps, k => (mrun r cs caps k).orElse fun _ => k cs caps
  | .seq a b, cs, caps, k => mrun a cs caps fun r c => mrun b r c k
  | .eol, cs, caps, k => if cs = [] ∨ cs.head? = some '\n' then k cs caps else none

/-- `re.search`: try the pattern at every start position, leftmost first;
the result is the capture list of the first match. -/
def reSearch (rx : Rx) : List Char → Option (List String)
  | [] => mrun rx [] [] fun _ caps => some caps
  | c :: rest =>
    match mrun rx (c :: rest) [] (fun _ caps => some caps) with
    | some caps => some caps
    | none => reSearch rx rest

/-- Candidate positions after the first newline, for `^`-anchored multiline
search: try the position after each `\n`, left to right. -/
def reSearchMLAux (rx : Rx) : List Char → Option (List String)
  | [] => none
  | '\n' :: cs =>
    (mrun rx cs [] fun _ caps => some caps).orElse fun _ => reSearchMLAux rx cs
  | _ :: cs => reSearchMLAux rx cs

/-- `re.search` with `re.MULTILINE` of a `^`-anchored pattern: try the string
start and the position after each newline, leftmost first. -/
def reSearchML (rx : Rx) (cs : List Char) : Option (List String) :=
  (mrun rx cs [] fun _ caps => some caps).orElse fun _ => reSearchMLAux rx cs

/-- First capture group of a search result. -/
def cap1 (o : Option (List String)) : Option String := o.bind List.head?

/-- Length consumed by `rx` matching at the head of `cs` (for `re.sub`). -/
def matchRest? (rx : Rx) (cs : List Char) : Option (List Char) :=
  mrun rx cs [] fun rest _ => some rest

/-- `re.sub(rx, '', ·)`: scan left to right; at each position either replace a
match with nothing and continue after it, or keep the character.  Fuel is the
input length — every pattern used consumes at least one character. -/
def reSubGo (rx : Rx) : Nat → List Char → List Char
  | 0, cs => cs
  | _ + 1, [] => []
  | f + 1, c :: cs =>
    match matchRest? rx (c :: cs) with
    | some rest =>
      if rest.length < (c :: cs).length then reSubGo rx f rest
      else c :: reSubGo rx f cs
    | none => c :: reSubGo rx f cs

/-- `re.sub(rx, '', s)` over a character list. -/
def reSubDel (rx : Rx) (cs : List Char) : List Char := reSubGo rx cs.length cs

/-! ### Character classes of the regex literals -/

/-- `[\d\.,]` -/
def numC (c : Char) : Bool := c.isDigit || c = '.' || c = ','

/-- `[-\d\.,]` -/
def numNegC (c : Char) : Bool := c.isDigit || c = '.' || c = ',' || c = '-'

/-- `.` (any character but a newline) -/
def dotC (c : Char) : Bool := ¬ c = '\n'

/-- `[0-9]` / `\d` (ASCII fragment) -/
def digitC (c : Char) : Bool := c.isDigit

/-- `[.,]` -/
def sepC (c : Char) : Bool := c = '.' || c = ','

/-- `[\d\.,\s:-]` -/
def numericLineC (c : Char) : Bool :=
  c.isDigit || c = '.' || c = ',' || isPySpace c || c = ':' || c = '-'

/-- `[p]+` -/
def rplus (p : Char → Bool) : Rx := .cls p 1 none

/-- `[p]*` -/
def rstar (p : Char → Bool) : Rx := .cls p 0 none

/-- `[p]{n}` -/
def rrep (p : Char → Bool) (n : Nat) : Rx := .cls p n (some n)

/-- `[p]{lo,hi}` -/
def rrep2 (p : Char → Bool) (lo hi : Nat) : Rx := .cls p lo (some hi)

/-- Sequence of regex pieces. -/
def rseq (l : List Rx) : Rx := l.foldr Rx.seq Rx.eps

/-! ### The regex literals of Reader.py -/

/-- `r'Transaction Statement:\s*Sale'` (IGNORECASE) -/
def rxTsSale : Rx := rseq [.litCI "Transaction Statement:", rstar isPySpace, .litCI "Sale"]

/-- `r'Transaction Statement:\s*(Purchase|Buy)'` (IGNORECASE); the group is
only tested for presence, so it is not captured here. -/
def rxTsBuy : Rx :=
  rseq [.litCI "Transaction Statement:", rstar isPySpace, .alt (.litCI "Purchase") (.litCI "Buy")]

/-- `r'(\d{4}-\d{2}-\d{2})'` -/
def rxIsoDate : Rx :=
  .grp (rseq [rrep digitC 4, .lit "-", rrep digitC 2, .lit "-", rrep digitC 2])

/-- `r'Units\s+([\d\.,]+)'` -/
def rxUnits : Rx := rseq [.lit "Units", rplus isPySpace, .grp (rplus numC)]

/-- `r'Price\s+EUR\s+([\d\.,]+)'` -/
def rxPriceEUR : Rx :=
  rseq [.lit "Price", rplus isPySpace, .lit "EUR", rplus isPySpace, .grp (rplus numC)]

/-- `r'([0-9]+[.,][0-9]+)\s*-\s*$'` (the tax-line pattern) -/
def rxTaxLine : Rx :=
  rseq [.grp (rseq [rplus digitC, rrep sepC 1, rplus digitC]),
        rstar isPySpace, .lit "-", rstar isPySpace, .eol]

/-- `r'^(Buy|Sell)\s+([\d\.,]+)\s*(?:pc\.|Stk\.)?\s+(.+)$'` (MULTILINE) -/
def rxHead1 : Rx :=
  rseq [.grp (.alt (.lit "Buy") (.lit "Sell")), rplus isPySpace, .grp (rplus numC),
        rstar isPySpace, .opt (.alt (.lit "pc.") (.lit "Stk.")), rplus isPySpace,
        .grp (rplus dotC), .eol]

/-- `r'^(Buy|Sell)\s+(.+)$'` (MULTILINE) -/
def rxHead2 : Rx :=
  rseq [.grp (.alt (.lit "Buy") (.lit "Sell")), rplus isPySpace, .grp (rplus dotC), .eol]

/-- `r'(?:Execution|Date)\s+(\d{2}\.\d{2}\.\d{4})'` -/
def rxCnDate : Rx :=
  rseq [.alt (.lit "Execution") (.lit "Date"), rplus isPySpace,
        .grp (rseq [rrep digitC 2, .lit ".", rrep digitC 2, .lit ".", rrep digitC 4])]

/-- `r'([\d\.,]+)\s*(?:pc\.|Stk\.)\s+([\d\.,]+)\s*EUR'` -/
def rxQtyPrice : Rx :=
  rseq [.grp (rplus numC), rstar isPySpace, .alt (.lit "pc.") (.lit "Stk."),
        rplus isPySpace, .grp (rplus numC), rstar isPySpace, .lit "EUR"]

/-- `r'Order fees\s*([-\d\.,]+)\s*EUR'` -/
def rxFee : Rx :=
  rseq [.lit "Order fees", rstar isPySpace, .grp (rplus numNegC), rstar isPySpace, .lit "EUR"]

/-- `r'Taxes\s*([-\d\.,]+)\s*EUR'` -/
def rxCnTaxes : Rx :=
  rseq [.lit "Taxes", rstar isPySpace, .grp (rplus numNegC), rstar isPySpace, .lit "EUR"]

/-- `r'Ex-Ante cost information\s*\n\s*(.+)'` -/
def rxCiAsset : Rx :=
  rseq [.lit "Ex-Ante cost information", rstar isPySpace, .lit "\n", rstar isPySpace,
        .grp (rplus dotC)]

/-- `r'Date\s+(\d{2}\.\d{2}\.\d{4})'` -/
def rxCiDate : Rx :=
  rseq [.lit "Date", rplus isPySpace,
        .grp (rseq [rrep digitC 2, .lit ".", rrep digitC 2, .lit ".", rrep digitC 4])]

/-- `r'Quantity\s+([\d\.,]+)'` -/
def rxCiQty : Rx := rseq [.lit "Quantity", rplus isPySpace, .grp (rplus numC)]

/-- `r'Est\. order amount\s+([\d\.,]+)\s*€'` -/
def rxCiAmt : Rx :=
  rseq [.lit "Est. order amount", rplus isPySpace, .grp (rplus numC), rstar isPySpace, .lit "€"]

/-- `r'\d{2}\.\d{2}\.\d{2,4}'` (date removal inside the name tokenizer) -/
def rxDateDots : Rx :=
  rseq [rrep digitC 2, .lit ".", rrep digitC 2, .lit ".", rrep2 digitC 2 4]

/-- `r'\d{4}-\d{2}-\d{2}'` (date removal inside the name tokenizer) -/
def rxDateIso : Rx :=
  rseq [rrep digitC 4, .lit "-", rrep digitC 2, .lit "-", rrep digitC 2]

/-! ## TradeRecord and the three format parsers (Reader.py lines 128–373) -/

/-- The per-document record built by the parsers (the Python dict with keys
`Source`, `Trade Type`, `Date`, `Asset Name`, `Quantity`, `Price per Unit`,
`Fee`, `Taxes`).  The `_filename` bookkeeping key added by `process_pdfs` is
not modelled: it never influences merging or any later step. -/
structure TradeRecord where
  source : String
  tradeType : String
  date : String
  assetName : String
  quantity : Q
  pricePerUnit : Q
  fee : Q
  taxes : Q
deriving DecidableEq, Repr

/-- Trade-type detection of the statement parser (`Sale` checked first). -/
def tsSearchType (text : String) : Option String :=
  if (reSearch rxTsSale text.toList).isSome then some "Sell"
  else if (reSearch rxTsBuy text.toList).isSome then some "Buy"
  else none

/-- `f"{d}.{m}.{y}"` from a `yyyy-mm-dd` capture (shape guaranteed by
`rxIsoDate`; the catch-all branch is unreachable). -/
def isoToGerman (s : String) : String :=
  match splitOnChar '-' s with
  | [y, m, d] => d ++ "." ++ m ++ "." ++ y
  | _ => s

/-- Date extraction of the statement parser. -/
def tsSearchDate (text : String) : Option String :=
  (cap1 (reSearch rxIsoDate text.toList)).map isoToGerman

/-- The blacklist of the statement parser's asset-name scan. -/
def tsBadWords : List String :=
  ["Execution Venue", "Market Value", "Amount", "Order", "Account", "Baader",
   "Bank", "UniCredit", "München", "Munich", "Tax", "WKN:", "ISIN:", "Client",
   "Portfolio", "Reference"]

/-- Candidate filter of the statement parser's anchored name scan, applied to
the stripped line: skip empty lines, blacklist hits (case-insensitive),
all-numeric/punctuation lines (`^[\d\.,\s:-]+$`), lines containing an ISO
date, and price-block lines. -/
def tsLineOk (l : String) : Bool :=
  ¬ l = "" &&
  ¬ (tsBadWords.any fun bw => hasSub (lowerStr bw) (lowerStr l)) &&
  ¬ l.toList.all numericLineC &&
  ¬ (reSearch rxDateIso l.toList).isSome &&
  ¬ (hasSub "Price" l && hasSub "EUR" l)

/-- Anchor search: the first line containing both `Price` and `EUR`, else the
first line containing `ISIN:`. -/
def tsAnchor (lines : List String) : Option Nat :=
  match lines.findIdx? (fun l => hasSub "Price" l && hasSub "EUR" l) with
  | some i => some i
  | none => lines.findIdx? (fun l => hasSub "ISIN:" l)

/-- Fallback name scan in the 400 characters after `Quantity`: first stripped
line that avoids `Execution Venue`, is longer than 3 characters and contains
none of the keyword substrings. -/
def tsFallbackName (text : String) : Option String :=
  match findSub? "Quantity".toList text.toList with
  | none => none
  | some qIdx =>
    ((splitlines (String.mk ((text.toList.drop qIdx).take 400))).map pyStrip).find? fun line =>
      ¬ hasSub "Execution Venue" line &&
      (line.length > 3 &&
        ¬ (["Quantity", "Units", "Price", "2025-", "Date"].any fun x => hasSub x line))

/-- Asset-name heuristic of the statement parser: scan the 9 lines after the
anchor through `tsLineOk`, fall back to the `Quantity` snippet, and default
to `"Unknown Asset"`.  (A found name is never the empty string — both scans
reject it — so Python's truthiness test on it is an is-found test.) -/
def tsAssetName (text : String) : String :=
  let lines := splitlines text
  let fromAnchor : Option String :=
    match tsAnchor lines with
    | none => none
    | some s => (((lines.drop (s + 1)).take 9).map pyStrip).find? tsLineOk
  match fromAnchor with
  | some n => n
  | none =>
    match tsFallbackName text with
    | some n => n
    | none => "Unknown Asset"

/-- Tax capture of one line of the statement: the pattern applied to the
stripped line. -/
def tsTaxCap (l : String) : Option String := cap1 (reSearch rxTaxLine (pyStrip l).toList)

/-- Tax total of the statement parser: from the first line matching the tax
pattern, sum the captures of the next (up to) 10 lines. -/
def tsTaxes (lines : List String) : Q :=
  match lines.findIdx? (fun l => (tsTaxCap l).isSome) with
  | none => Q.zero
  | some i =>
    ((lines.drop i).take 10).foldl
      (fun acc l =>
        match tsTaxCap l with
        | some g => Q.add acc (parse_german_float g)
        | none => acc)
      Q.zero

/-- `extract_trade_info_transaction_statement` (Reader.py lines 128–264);
each failing `return None` of the source is an `Option.bind` short-circuit. -/
def extract_trade_info_transaction_statement (text : String) : Option TradeRecord :=
  (tsSearchType text).bind fun ty =>
  (tsSearchDate text).bind fun date =>
  (cap1 (reSearch rxUnits text.toList)).bind fun unitsS =>
  (cap1 (reSearch rxPriceEUR text.toList)).bind fun priceS =>
  some { source := "transaction_statement", tradeType := ty, date := date,
         assetName := tsAssetName text,
         quantity := parse_german_float unitsS,
         pricePerUnit := parse_german_float priceS,
         fee := Q.zero,
         taxes := tsTaxes (splitlines text) }

/-- Header extraction of the contract-note parser: the 3-group pattern first,
else the 2-group pattern; yields `(tradeType, assetName)`.  (`capitalize` on
the captured `Buy`/`Sell` literal is the identity but is modelled
faithfully.) -/
def cnHead (text : String) : Option (String × String) :=
  match reSearchML rxHead1 text.toList with
  | some [g1, _, g3] => some (pyCapitalize g1, pyStrip g3)
  | some _ => none
  | none =>
    match reSearchML rxHead2 text.toList with
    | some [g1, g2] => some (pyCapitalize g1, pyStrip g2)
    | _ => none

/-- Quantity/price pair of the contract-note parser (the two groups of
`rxQtyPrice`; the catch-all is unreachable, the pattern has exactly two
groups). -/
def cnQtyPrice (text : String) : Option (String × String) :=
  match reSearch rxQtyPrice text.toList with
  | some [qS, pS] => some (qS, pS)
  | _ => none

/-- `extract_trade_info_contract_note` (Reader.py lines 266–319); each
failing `return None` of the source is an `Option.bind` short-circuit. -/
def extract_trade_info_contract_note (text : String) : Option TradeRecord :=
  (cnHead text).bind fun ta =>
  (cap1 (reSearch rxCnDate text.toList)).bind fun date =>
  (cnQtyPrice text).bind fun qp =>
  some { source := "contract_note", tradeType := ta.1, date := date, assetName := ta.2,
         quantity := parse_german_float qp.1, pricePerUnit := parse_german_float qp.2,
         fee :=
           match cap1 (reSearch rxFee text.toList) with
           | some f => Q.qabs (parse_german_float f)
           | none => Q.zero,
         taxes :=
           match cap1 (reSearch rxCnTaxes text.toList) with
           | some f => Q.qabs (parse_german_float f)
           | none => Q.zero }

/-- Trade-type detection of the cost-information parser. -/
def ciSearchType (text : String) : Option String :=
  if hasSub "Order Buy" text || hasSub "Order\nBuy" text then some "Buy"
  else if hasSub "Order Sell" text || hasSub "Order\nSell" text then some "Sell"
  else none

/-- `extract_trade_info_cost_information` (Reader.py lines 322–355); each
failing `return None` of the source is an `Option.bind` short-circuit. -/
def extract_trade_info_cost_information (text : String) : Option TradeRecord :=
  (ciSearchType text).bind fun ty =>
  (cap1 (reSearch rxCiDate text.toList)).bind fun date =>
  (cap1 (reSearch rxCiQty text.toList)).bind fun qS =>
  some { source := "cost_information", tradeType := ty, date := date,
         assetName :=
           match cap1 (reSearch rxCiAsset text.toList) with
           | some a => pyStrip a
           | none => "Unknown",
         quantity := parse_german_float qS,
         pricePerUnit :=
           match cap1 (reSearch rxCiAmt text.toList) with
           | some amt =>
             if Q.blt Q.zero (parse_german_float qS) then
               Q.div (parse_german_float amt) (parse_german_float qS)
             else Q.zero
           | none => Q.zero,
         fee := Q.zero, taxes := Q.zero }

/-- The classifier of `extract_trade_info` (Reader.py lines 365–373): marker
phrases checked in a fixed order. -/
def extract_trade_info_text (text : String) : Option TradeRecord :=
  if hasSub "Transaction Statement" text then
    extract_trade_info_transaction_statement text
  else if hasSub "Contract note" text || hasSub "Abrechnung" text then
    extract_trade_info_contract_note text
  else if hasSub "Ex-Ante cost information" text || hasSub "Kostentransparenz" text then
    extract_trade_info_cost_information text
  else none

/-- A pending PDF: file name plus the text the extraction collaborator
produced for it (`none` models `extract_text` raising, caught in
`extract_trade_info`). -/
structure PdfDoc where
  filename : String
  text : Option String
deriving DecidableEq, Repr

/-- `extract_trade_info` (Reader.py lines 358–373). -/
def extract_trade_info (d : PdfDoc) : Option TradeRecord :=
  match d.text with
  | none => none
  | some t => extract_trade_info_text t

/-! ## Merging and ordering (Reader.py `process_pdfs`, lines 512–575) -/

/-- The deduplication key `(trade_data['Date'], trade_data['Trade Type'],
trade_data['Quantity'])`. -/
abbrev MergeKey := String × String × Q

def mergeKey (t : TradeRecord) : MergeKey := (t.date, t.tradeType, t.quantity)

/-- Lookup in the insertion-ordered association list modelling the
`merged_trades` dict. -/
def lookupKey : List (MergeKey × TradeRecord) → MergeKey → Option TradeRecord
  | [], _ => none
  | (k, v) :: rest, key => if k = key then some v else lookupKey rest key

/-- Dict update: replace in place when the key is present (keeping insertion
order, as a Python dict does), otherwise append. -/
def setKey : List (MergeKey × TradeRecord) → MergeKey → TradeRecord → List (MergeKey × TradeRecord)
  | [], key, v => [(key, v)]
  | (k, w) :: rest, key, v =>
    if k = key then (k, v) :: rest else (k, w) :: setKey rest key v

/-- One merge decision of `process_pdfs` (Reader.py lines 536–557): a new
record replaces the stored record of the same key when it is a contract note
or carries strictly more taxes; otherwise (including the explicit
`transaction_statement` over `cost_information` `pass` branch) the stored
record stays. -/
def mergeStep (m : List (MergeKey × TradeRecord)) (t : TradeRecord) :
    List (MergeKey × TradeRecord) :=
  let key := mergeKey t
  match lookupKey m key with
  | some existing =>
    if t.source = "contract_note" then setKey m key t
    else if Q.blt existing.taxes t.taxes then setKey m key t
    else m
  | none => setKey m key t

/-- State of the batch loop: the merged dict plus the names of the files
removed so far. -/
structure BatchResult where
  merged : List (MergeKey × TradeRecord)
  deleted : List String
deriving DecidableEq, Repr

/-- One iteration of the loop over the PDF folder: parse (and merge when a
record was produced), then `os.remove` the file — the removal is attempted
for every file, parsed or not, and exceptions are swallowed. -/
def processStep (st : BatchResult) (d : PdfDoc) : BatchResult :=
  let merged :=
    match extract_trade_info d with
    | some t => mergeStep st.merged t
    | none => st.merged
  { merged := merged, deleted := st.deleted ++ [d.filename] }

/-- The folder loop of `process_pdfs` (parsing, merging and deleting; the
later sort/write steps are modelled separately on `merged`). -/
def process_pdfs (docs : List PdfDoc) : BatchResult :=
  docs.foldl processStep ⟨[], []⟩

/-- `sort_algo`'s primary key: `int(y) * 10000 + int(m) * 100 + int(d)` from
splitting the date on `.` (the catch-all is unreachable for dates produced by
the parsers, whose well-formedness `wfGermanDate` captures; Python would
raise there). -/
def dateKeyNum (s : String) : Nat :=
  match splitOnChar '.' s with
  | [d, m, y] => natOfDigits y.toList * 10000 + natOfDigits m.toList * 100 + natOfDigits d.toList
  | _ => 0

/-- `sort_algo`'s secondary key: `0 if t['Trade Type'] == 'Buy' else 1`. -/
def typePrio (t : TradeRecord) : Nat := if t.tradeType = "Buy" then 0 else 1

/-- The list order induced by `sort_algo` key tuples (Python sorts tuples
lexicographically, ascending). -/
def sortLe (a b : TradeRecord) : Bool :=
  decide (dateKeyNum a.date < dateKeyNum b.date) ||
  (decide (dateKeyNum a.date = dateKeyNum b.date) && decide (typePrio a ≤ typePrio b))

/-- `final_list.sort(key=sort_algo)` (a stable ascending sort, like Timsort). -/
def sort_algo_list (ts : List TradeRecord) : List TradeRecord := ts.mergeSort sortLe

/-- Dates the parsers produce: `d.m.y` with non-empty all-digit parts, day
and month two-digit fields (value below 100) — the shape `sort_algo` and
`strptime` consume. -/
def wfGermanDate (s : String) : Bool :=
  match splitOnChar '.' s with
  | [d, m, y] =>
    ¬ d.isEmpty && ¬ m.isEmpty && ¬ y.isEmpty &&
    d.toList.all Char.isDigit && m.toList.all Char.isDigit && y.toList.all Char.isDigit &&
    decide (natOfDigits d.toList < 100) && decide (natOfDigits m.toList < 100)
  | _ => false

/-- Calendar triple `(year, month, day)` of a `d.m.y` date string. -/
def calParts (s : String) : Nat × Nat × Nat :=
  match splitOnChar '.' s with
  | [d, m, y] => (natOfDigits y.toList, natOfDigits m.toList, natOfDigits d.toList)
  | _ => (0, 0, 0)

/-- Calendar order: lexicographic on `(year, month, day)`. -/
def calLe (a b : Nat × Nat × Nat) : Prop :=
  a.1 < b.1 ∨ (a.1 = b.1 ∧ (a.2.1 < b.2.1 ∨ (a.2.1 = b.2.1 ∧ a.2.2 ≤ b.2.2)))

/-! ## Asset-name similarity (Reader.py lines 51–122) -/

/-- `f"{val:.4f}"`: the value rendered with exactly four decimal places,
ties rounded to even.  (Python rounds the IEEE double; on the exact decimal
values the tokenizer produces the two agree, and `Q` keeps no negative
zero.) -/
def fmt4 (q : Q) : String :=
  let a : Nat := q.num.natAbs * 10000
  let quot := a / q.den
  let rem := a % q.den
  let n :=
    if 2 * rem < q.den then quot
    else if q.den < 2 * rem then quot + 1
    else if quot % 2 = 0 then quot else quot + 1
  (if q.num < 0 then "-" else "") ++ natToDigits (n / 10000) ++ "." ++
    (let s := natToDigits (n % 10000)
     String.mk (List.replicate (4 - s.length) '0') ++ s)

/-- Numeric-token normalisation of the tokenizer:
`f"{float(t):.4f}".rstrip('0').rstrip('.')` when `float(t)` succeeds,
otherwise the token unchanged. -/
def normToken (t : String) : String :=
  match pyFloat? t with
  | some q => rstripChar '.' (rstripChar '0' (fmt4 q))
  | none => t

/-- Insertion into the list model of a Python `set` (first occurrence kept;
only the size and the intersection size of the set are ever consumed, which
the deduplicated list represents exactly). -/
def insertUniq (l : List String) (t : String) : List String :=
  if l.contains t then l else l ++ [t]

/-- `clean_and_tokenize` (Reader.py lines 67–103): drop date substrings,
currency signs and filler words, turn commas into points, split on
whitespace, normalise numeric tokens, and keep tokens longer than one
character or purely numeric. -/
def clean_and_tokenize (text : String) : List String :=
  let cs := reSubDel rxDateDots text.toList
  let cs := reSubDel rxDateIso cs
  let cs := cs.filter fun c => ¬ (c = '$' ∨ c = '€')
  let s := String.mk cs
  let s := replaceStr (replaceStr (replaceStr (replaceStr s "eur" "") "usd" "") "pc." "") "stk." ""
  let s := replaceStr s "," "."
  ((pySplit s).map normToken).foldl
    (fun acc t => if t.length > 1 || pyIsDigit t then insertUniq acc t else acc) []

/-- `are_assets_similar` (Reader.py lines 51–122): falsy names never match;
identical lower-cased names always match; otherwise the token-set
intersection must reach the length-scaled threshold. -/
def are_assets_similar (name1 name2 : String) : Bool :=
  if name1 = "" ∨ name2 = "" then false
  else if lowerStr name1 = lowerStr name2 then true
  else if min (clean_and_tokenize (lowerStr name1)).length
             (clean_and_tokenize (lowerStr name2)).length = 0 then false
  else
    decide ((if min (clean_and_tokenize (lowerStr name1)).length
                    (clean_and_tokenize (lowerStr name2)).length < 3
             then min (clean_and_tokenize (lowerStr name1)).length
                      (clean_and_tokenize (lowerStr name2)).length
             else min (clean_and_tokenize (lowerStr name1)).length
                      (clean_and_tokenize (lowerStr name2)).length - 1)
              ≤ ((clean_and_tokenize (lowerStr name1)).filter
                   fun t => (clean_and_tokenize (lowerStr name2)).contains t).length)

/-! ## The spreadsheet ledger (Reader.py lines 379–509)

A worksheet row is modelled by its cells as `Reader.py` uses them: `A` asset
name, `B` buy date, `C` buy quantity, `D` buy price, `F` sell date, `G` sell
quantity, `H` sell price, the `Taxes` column, and the three after-tax profit
columns.  `ensure_columns_exist` guarantees the four added columns exist, so
the `if col_…` guards of `write_excel` are always taken and the columns are
plain fields here.  Date cells store the `dd.mm.yyyy` string (the
`datetime.strptime` round-trip); a date cell is truthy in Python exactly when
it is non-empty, i.e. `Option.isSome` here.  The profit cells receive Excel
formula strings whose only row-dependent content is the worksheet row number
they reference, which is what the model stores. -/

structure Row where
  colA : Option String
  colB : Option String
  colC : Option Q
  colD : Option Q
  colF : Option String
  colG : Option Q
  colH : Option Q
  colTaxes : Option Q
  colPAbs : Option Nat
  colPPct : Option Nat
  colPDay : Option Nat
deriving DecidableEq, Repr

def blankRow : Row := ⟨none, none, none, none, none, none, none, none, none, none, none⟩

/-- Truthiness of the `A` cell (`if name_cell.value`): a non-empty string. -/
def truthyA (r : Row) : Bool := match r.colA with | some s => ¬ s = "" | none => false

/-- `str(name_cell.value).strip() if name_cell.value else ""`. -/
def excelName (r : Row) : String :=
  match r.colA with
  | some s => if s = "" then "" else pyStrip s
  | none => ""

/-- The scan of `find_buy_row` (Reader.py lines 406–421) with its row
counter: rows whose sell-date cell is occupied are skipped; the first
remaining row whose name is similar to the sell's asset name wins. -/
def find_buy_row_go (assetName : String) : List Row → Nat → Option Nat
  | [], _ => none
  | r :: rest, i =>
    if r.colF.isSome then find_buy_row_go assetName rest (i + 1)
    else if are_assets_similar (excelName r) assetName then some i
    else find_buy_row_go assetName rest (i + 1)

/-- `find_buy_row(sheet, asset_name, quantity)`: the result is the list index
of the matched row (Python returns the worksheet row number, i.e. index + 2).
The `quantity` argument is received but never used in matching, exactly as in
the source. -/
def find_buy_row (sheet : List Row) (assetName : String) (quantity : Q) : Option Nat :=
  find_buy_row_go assetName sheet 0

/-- First row whose `A` cell is empty (`row = 2; while ws[A row].value:`);
if every stored row is occupied the scan leaves the stored range and the
write below appends. -/
def firstFreeA (sheet : List Row) : Nat :=
  match sheet.findIdx? (fun r => ¬ truthyA r) with
  | some i => i
  | none => sheet.length

/-- Apply a cell update at index `i`, appending a fresh row when the index is
just past the stored range (openpyxl materialises cells on write). -/
def writeRow (sheet : List Row) (i : Nat) (f : Row → Row) : List Row :=
  if i < sheet.length then sheet.set i (f (sheet.getD i blankRow))
  else sheet ++ [f blankRow]

/-- The Buy branch of `write_excel`: cells `A`–`D` and the `Taxes` column. -/
def buyFill (t : TradeRecord) (r : Row) : Row :=
  { r with colA := some t.assetName, colB := some t.date,
           colC := some t.quantity, colD := some t.pricePerUnit,
           colTaxes := some t.taxes }

/-- The Sell branch of `write_excel` at worksheet row `rowNum`: cells `F`–`H`,
the `Taxes` column, and the three formula cells referencing `rowNum`. -/
def sellFill (t : TradeRecord) (rowNum : Nat) (r : Row) : Row :=
  { r with colF := some t.date, colG := some t.quantity, colH := some t.pricePerUnit,
           colTaxes := some t.taxes,
           colPAbs := some rowNum, colPPct := some rowNum, colPDay := some rowNum }

/-- The `print` calls of `write_excel`, as observable events:
`matched asset (cell A value) rowNum` for the `MATCH:` line and
`noMatch asset date` for the `WARNUNG: Kein Match für '{asset}'
(Datum: {date})` line. -/
inductive LogMsg where
  | matched : String → Option String → Nat → LogMsg
  | noMatch : String → String → LogMsg
deriving DecidableEq, Repr

/-- One iteration of the trade loop of `write_excel` (Reader.py lines
444–503): Buys fill the first free row, Sells close the row found by
`find_buy_row` or warn; any other trade type falls through both branches. -/
def applyTrade (sheet : List Row) (t : TradeRecord) : List Row × List LogMsg :=
  if t.tradeType = "Buy" then
    (writeRow sheet (firstFreeA sheet) (buyFill t), [])
  else if t.tradeType = "Sell" then
    match find_buy_row sheet t.assetName t.quantity with
    | some i =>
      let sheet2 := writeRow sheet i (sellFill t (i + 2))
      (sheet2, [LogMsg.matched t.assetName (sheet2.getD i blankRow).colA (i + 2)])
    | none => (sheet, [LogMsg.noMatch t.assetName t.date])
  else (sheet, [])

/-- `write_excel` over all trades: the final sheet and the emitted messages.
(Workbook load/save and the missing-file / `PermissionError` paths are
external-collaborator I/O outside this model.) -/
def write_excel (sheet : List Row) (trades : List TradeRecord) : List Row × List LogMsg :=
  trades.foldl (fun st t => let p := applyTrade st.1 t; (p.1, st.2 ++ p.2)) (sheet, [])

/-! ## Concrete inputs used by witnesses and counterexamples -/

/-- A transaction-statement text that parses successfully. -/
def tsSampleText : String :=
  "Transaction Statement: Sale\nSettlement 2025-03-04\nPrice EUR 10,50\nNVIDIA Put Something\nUnits 5\n"

/-- A contract-note text that parses successfully. -/
def cnSampleText : String :=
  "Contract note\nBuy 5 pc. Foo Asset\nExecution 04.03.2025\n5 pc. 10,50 EUR\nOrder fees -0,99 EUR\n"

/-- A cost-information text that parses successfully (estimated amount
present, quantity positive). -/
def ciSampleText : String :=
  "Ex-Ante cost information\nFoo Asset\nOrder Buy\nDate 04.03.2025\nQuantity 2\nEst. order amount 21,00 €\n"

/-- A cost-information text whose `Est. order amount` line is absent: every
other required anchor is present. -/
def ciNoAmountText : String :=
  "Ex-Ante cost information\nFoo Asset\nOrder Buy\nDate 04.03.2025\nQuantity 2\n"

/-- The record `extract_trade_info_cost_information` produces for
`ciSampleText`. -/
def ciSampleRec : TradeRecord :=
  { source := "cost_information", tradeType := "Buy", date := "04.03.2025",
    assetName := "Foo Asset", quantity := Q.ofNat 2,
    pricePerUnit := Q.norm 105 10, fee := Q.zero, taxes := Q.zero }

/-- A cost-information record (as the CostInfo parser could produce it). -/
def ciRecC1 : TradeRecord :=
  { source := "cost_information", tradeType := "Buy", date := "04.03.2025",
    assetName := "NVIDIA Put 200,00 $ HVB", quantity := Q.ofNat 2,
    pricePerUnit := Q.zero, fee := Q.zero, taxes := Q.zero }

/-- A contract-note record with the same merge key as `ciRecC1` but its own
asset name and numeric fields. -/
def cnRecC1 : TradeRecord :=
  { source := "contract_note", tradeType := "Buy", date := "04.03.2025",
    assetName := "HVB Put 17.12.25 NVIDIA 200", quantity := Q.ofNat 2,
    pricePerUnit := Q.norm 105 10, fee := Q.norm 99 100, taxes := Q.zero }

/-- A document no classifier marker matches. -/
def unknownDoc : PdfDoc := ⟨"unknown.pdf", some "quarterly newsletter"⟩

/-- A pending document wrapping `ciSampleText`. -/
def ciSampleDoc : PdfDoc := ⟨"cost.pdf", some ciSampleText⟩

/-- The record `extract_trade_info_transaction_statement` produces for
`tsSampleText`. -/
def tsSampleRec : TradeRecord :=
  { source := "transaction_statement", tradeType := "Sell", date := "04.03.2025",
    assetName := "NVIDIA Put Something", quantity := Q.ofNat 5,
    pricePerUnit := Q.norm 105 10, fee := Q.zero, taxes := Q.zero }

/-- The record `extract_trade_info_contract_note` produces for
`cnSampleText`. -/
def cnSampleRec : TradeRecord :=
  { source := "contract_note", tradeType := "Buy", date := "04.03.2025",
    assetName := "Foo Asset", quantity := Q.ofNat 5,
    pricePerUnit := Q.norm 105 10, fee := Q.norm 99 100, taxes := Q.zero }

/-- A ledger row closed on 05.01.2025. -/
def closedRow : Row :=
  { colA := some "Old Position", colB := some "01.01.2025", colC := some (Q.ofNat 1),
    colD := some (Q.ofNat 2), colF := some "05.01.2025", colG := some (Q.ofNat 1),
    colH := some (Q.ofNat 3), colTaxes := some Q.zero,
    colPAbs := some 2, colPPct := some 2, colPDay := some 2 }

/-- An open ledger row holding the NVIDIA put. -/
def openRow : Row :=
  { blankRow with colA := some "NVIDIA Put 200,00 $ HVB", colB := some "04.03.2025",
                  colC := some (Q.ofNat 2), colD := some (Q.norm 105 10) }

/-- A sell whose name matches `openRow` via the tolerant comparison. -/
def sellTradeSample : TradeRecord :=
  { source := "contract_note", tradeType := "Sell", date := "10.03.2025",
    assetName := "HVB Put 17.12.25 NVIDIA 200", quantity := Q.ofNat 2,
    pricePerUnit := Q.ofNat 12, fee := Q.zero, taxes := Q.zero }

/-- A sell whose name matches nothing in the sample sheet. -/
def sellTradeNoMatch : TradeRecord :=
  { source := "contract_note", tradeType := "Sell", date := "11.03.2025",
    assetName := "Completely Different Instrument", quantity := Q.ofNat 2,
    pricePerUnit := Q.ofNat 12, fee := Q.zero, taxes := Q.zero }

/-- A buy dated like `sellTradeSample` (for the sequencer witness). -/
def buyTradeSample : TradeRecord :=
  { source := "contract_note", tradeType := "Buy", date := "10.03.2025",
    assetName := "Foo", quantity := Q.ofNat 1,
    pricePerUnit := Q.ofNat 1, fee := Q.zero, taxes := Q.zero }

/-! ## Claim theorems -/

/-- Lookup after a dict update at the same key yields the new value. -/
theorem lookupKey_setKey (m : List (MergeKey × TradeRecord)) (k : MergeKey) (v : TradeRecord) :
    lookupKey (setKey m k v) k = some v := by
  induction m with
  | nil => simp [setKey, lookupKey]
  | cons p rest ih =>
    obtain ⟨k2, w⟩ := p
    by_cases h : k2 = k
    · simp [setKey, h, lookupKey]
    · simp [setKey, h, lookupKey, ih]


/-- C3, counterexample: the similarity check applied to the empty string and
itself returns `false` (the falsy-name guard fires before the equality
shortcut), so the claimed reflexivity "including the empty string" fails. -/
theorem spec_C3_counterexample : are_assets_similar "" "" = false := by decide

/-- C3 (amended): for every non-empty name `x`, the asset-name similarity
check applied to `x` and `x` returns `true` (the lower-cased equality
shortcut fires). -/
theorem spec_C3_similarity_reflexive (x : String) (h : ¬ x = "") :
    are_assets_similar x x = true := by
  have hor : ¬ (x = "" ∨ x = "") := fun hc => h (hc.elim id id)
  unfold are_assets_similar
  rw [if_neg hor]
  exact if_pos rfl

/-- Witness for C3 at a concrete non-empty name. -/
theorem spec_C3_witness : are_assets_similar "NVIDIA Put" "NVIDIA Put" = true :=
  spec_C3_similarity_reflexive "NVIDIA Put" (by decide)

/-- C4: `parse_german_float` agrees with the spec's NumericNormalizer on
every input (earlier separator removed as the thousands separator, the later
one the decimal point, a lone comma the decimal point), and the four quoted
examples evaluate as stated: `"1.234,56" ↦ 1234.56`, `"1,234.56" ↦ 1234.56`,
`"0,99" ↦ 0.99`, `"" ↦ 0.0`. -/
theorem spec_C4_numeric_normalizer :
    (∀ s : String, parse_german_float s = NumericNormalizer s) ∧
    parse_german_float "1.234,56" = Q.norm 123456 100 ∧
    parse_german_float "1,234.56" = Q.norm 123456 100 ∧
    parse_german_float "0,99" = Q.norm 99 100 ∧
    parse_german_float "" = Q.zero := by
  refine ⟨fun s => ?_, by decide, by decide, by decide, by decide⟩
  by_cases h : s = ""
  · subst h; decide
  · unfold parse_german_float NumericNormalizer
    rw [if_neg h]

/-- C1, counterexample: merging a CostInfo record and a later ContractNote
record with the same merge key leaves the ContractNote's asset name on the
merged record — it is not overwritten with the CostInfo record's name. -/
theorem spec_C1_counterexample :
    (lookupKey (mergeStep (mergeStep [] ciRecC1) cnRecC1) (mergeKey cnRecC1)).map
        TradeRecord.assetName = some "HVB Put 17.12.25 NVIDIA 200" ∧
    ¬ (lookupKey (mergeStep (mergeStep [] ciRecC1) cnRecC1) (mergeKey cnRecC1)).map
        TradeRecord.assetName = some ciRecC1.assetName := by decide

/-- C1 (amended): when a ContractNote record meets a stored CostInfo record
of the same merge key, the merged record is the ContractNote record in full —
its price, quantity, fee and tax fields and also its assetName; no asset-name
overwrite from the CostInfo record takes place. -/
theorem spec_C1_merge_contract_note_wins (m : List (MergeKey × TradeRecord))
    (c n : TradeRecord) (hc : c.source = "cost_information")
    (hn : n.source = "contract_note") (hk : mergeKey c = mergeKey n)
    (hm : lookupKey m (mergeKey n) = some c) :
    lookupKey (mergeStep m n) (mergeKey n) = some n := by
  have hstep : mergeStep m n = setKey m (mergeKey n) n := by
    simp [mergeStep, hm, hn]
  rw [hstep]
  exact lookupKey_setKey m (mergeKey n) n

/-- Witness for C1 at concrete records. -/
theorem spec_C1_witness :
    lookupKey (mergeStep [(mergeKey cnRecC1, ciRecC1)] cnRecC1) (mergeKey cnRecC1)
      = some cnRecC1 :=
  spec_C1_merge_contract_note_wins [(mergeKey cnRecC1, ciRecC1)] ciRecC1 cnRecC1
    (by decide) (by decide) (by decide) (by decide)

/-- C10: a record emitted by the CostInfo parser carries
`estimated amount / quantity` as its price only under the guard — amount
pattern matched and quantity strictly positive; whenever the amount is absent
or the quantity is not positive the fallback price `0.0` is taken instead, so
the division only ever runs with a strictly positive divisor. -/
theorem spec_C10_cost_info_division_guard (text : String) (r : TradeRecord)
    (h : extract_trade_info_cost_information text = some r) :
    (∃ amt, cap1 (reSearch rxCiAmt text.toList) = some amt ∧
       Q.blt Q.zero r.quantity = true ∧
       r.pricePerUnit = Q.div (parse_german_float amt) r.quantity) ∨
    (r.pricePerUnit = Q.zero ∧
       (cap1 (reSearch rxCiAmt text.toList) = none ∨ Q.blt Q.zero r.quantity = false)) := by
  unfold extract_trade_info_cost_information at h
  rw [Option.bind_eq_some] at h
  obtain ⟨ty, hty, h⟩ := h
  rw [Option.bind_eq_some] at h
  obtain ⟨date, hdate, h⟩ := h
  rw [Option.bind_eq_some] at h
  obtain ⟨qS, hqty, h⟩ := h
  injection h with h2
  subst h2
  cases hamt : cap1 (reSearch rxCiAmt text.toList) with
  | none =>
    right
    exact ⟨rfl, Or.inl rfl⟩
  | some amt =>
    by_cases hpos : Q.blt Q.zero (parse_german_float qS) = true
    · refine Or.inl ⟨amt, rfl, hpos, ?_⟩
      show (if Q.blt Q.zero (parse_german_float qS) = true
            then Q.div (parse_german_float amt) (parse_german_float qS) else Q.zero)
         = Q.div (parse_german_float amt) (parse_german_float qS)
      exact if_pos hpos
    · refine Or.inr ⟨?_, Or.inr ?_⟩
      · show (if Q.blt Q.zero (parse_german_float qS) = true
              then Q.div (parse_german_float amt) (parse_german_float qS) else Q.zero)
           = Q.zero
        exact if_neg hpos
      · rw [Bool.not_eq_true] at hpos
        exact hpos

/-- Witness for C10 at a concrete cost-information document. -/
theorem spec_C10_witness :
    (∃ amt, cap1 (reSearch rxCiAmt ciSampleText.toList) = some amt ∧
       Q.blt Q.zero ciSampleRec.quantity = true ∧
       ciSampleRec.pricePerUnit = Q.div (parse_german_float amt) ciSampleRec.quantity) ∨
    (ciSampleRec.pricePerUnit = Q.zero ∧
       (cap1 (reSearch rxCiAmt ciSampleText.toList) = none ∨
        Q.blt Q.zero ciSampleRec.quantity = false)) :=
  spec_C10_cost_info_division_guard ciSampleText ciSampleRec (by decide)

/-- C2, counterexample: a cost-information document with trade type, date and
quantity present but no `Est. order amount` line — so `pricePerUnit` cannot
be resolved — still yields a record, carrying the defaulted price `0.0`,
instead of failing the whole document. -/
theorem spec_C2_counterexample :
    cap1 (reSearch rxCiAmt ciNoAmountText.toList) = none ∧
    (extract_trade_info_cost_information ciNoAmountText).map TradeRecord.pricePerUnit
      = some Q.zero := by decide

/-- C2 (amended): each parser fails the whole document whenever one of its
required anchor patterns finds no match — trade type, date and quantity for
all three, and additionally the price pattern for the Statement parser and
the quantity/price pattern for the ContractNote parser; the CostInfo parser
however defaults `pricePerUnit` to `0.0` instead of failing, and numeric text
that matches a field's pattern is carried into the record (as `0.0` when
malformed) rather than causing failure.  Stated as: an emitted record implies
every required anchor matched. -/
theorem spec_C2_required_anchor_failures (text : String) :
    (∀ r, extract_trade_info_transaction_statement text = some r →
       (tsSearchType text).isSome = true ∧ (tsSearchDate text).isSome = true ∧
       (cap1 (reSearch rxUnits text.toList)).isSome = true ∧
       (cap1 (reSearch rxPriceEUR text.toList)).isSome = true) ∧
    (∀ r, extract_trade_info_contract_note text = some r →
       (cnHead text).isSome = true ∧
       (cap1 (reSearch rxCnDate text.toList)).isSome = true ∧
       (cnQtyPrice text).isSome = true) ∧
    (∀ r, extract_trade_info_cost_information text = some r →
       (ciSearchType text).isSome = true ∧
       (cap1 (reSearch rxCiDate text.toList)).isSome = true ∧
       (cap1 (reSearch rxCiQty text.toList)).isSome = true) := by
  refine ⟨fun r h => ?_, fun r h => ?_, fun r h => ?_⟩
  · unfold extract_trade_info_transaction_statement at h
    rw [Option.bind_eq_some] at h
    obtain ⟨ty, hty, h⟩ := h
    rw [Option.bind_eq_some] at h
    obtain ⟨date, hdate, h⟩ := h
    rw [Option.bind_eq_some] at h
    obtain ⟨u, hu, h⟩ := h
    rw [Option.bind_eq_some] at h
    obtain ⟨p, hp, _⟩ := h
    exact ⟨by rw [hty]; rfl, by rw [hdate]; rfl, by rw [hu]; rfl, by rw [hp]; rfl⟩
  · unfold extract_trade_info_contract_note at h
    rw [Option.bind_eq_some] at h
    obtain ⟨ta, hta, h⟩ := h
    rw [Option.bind_eq_some] at h
    obtain ⟨date, hdate, h⟩ := h
    rw [Option.bind_eq_some] at h
    obtain ⟨qp, hqp, _⟩ := h
    exact ⟨by rw [hta]; rfl, by rw [hdate]; rfl, by rw [hqp]; rfl⟩
  · unfold extract_trade_info_cost_information at h
    rw [Option.bind_eq_some] at h
    obtain ⟨ty, hty, h⟩ := h
    rw [Option.bind_eq_some] at h
    obtain ⟨date, hdate, h⟩ := h
    rw [Option.bind_eq_some] at h
    obtain ⟨qS, hq, _⟩ := h
    exact ⟨by rw [hty]; rfl, by rw [hdate]; rfl, by rw [hq]; rfl⟩

/-- Witness for C2: the three parsers applied to concrete parsing documents,
instantiating each implication. -/
theorem spec_C2_witness :
    ((tsSearchType tsSampleText).isSome = true ∧
     (cap1 (reSearch rxUnits tsSampleText.toList)).isSome = true) ∧
    (cnQtyPrice cnSampleText).isSome = true ∧
    (cap1 (reSearch rxCiQty ciSampleText.toList)).isSome = true := by
  have hts := (spec_C2_required_anchor_failures tsSampleText).1 tsSampleRec (by decide)
  have hcn := (spec_C2_required_anchor_failures cnSampleText).2.1 cnSampleRec (by decide)
  have hci := (spec_C2_required_anchor_failures ciSampleText).2.2 ciSampleRec (by decide)
  exact ⟨⟨hts.1, hts.2.2.1⟩, hcn.2.2, hci.2.2⟩

/-- C5: for non-identical lower-cased names, similarity holds exactly when
the smaller token-set size `m` is positive and the intersection reaches the
threshold — `m` itself when `m < 3`, otherwise `m - 1`; and the two quoted
examples evaluate as stated (the NVIDIA/HVB pair matches, `"AA"`/`"BB"` does
not). -/
theorem spec_C5_similarity_threshold :
    (∀ n1 n2 : String, ¬ lowerStr n1 = lowerStr n2 →
      (are_assets_similar n1 n2 = true ↔
        (0 < min (clean_and_tokenize (lowerStr n1)).length
                 (clean_and_tokenize (lowerStr n2)).length ∧
          (if min (clean_and_tokenize (lowerStr n1)).length
                  (clean_and_tokenize (lowerStr n2)).length < 3
           then min (clean_and_tokenize (lowerStr n1)).length
                    (clean_and_tokenize (lowerStr n2)).length
           else min (clean_and_tokenize (lowerStr n1)).length
                    (clean_and_tokenize (lowerStr n2)).length - 1)
            ≤ ((clean_and_tokenize (lowerStr n1)).filter
                 fun t => (clean_and_tokenize (lowerStr n2)).contains t).length))) ∧
    are_assets_similar "NVIDIA Put 200,00 $ HVB" "HVB Put 17.12.25 NVIDIA 200" = true ∧
    are_assets_similar "AA" "BB" = false := by
  refine ⟨fun n1 n2 hne => ?_, by decide, by decide⟩
  unfold are_assets_similar
  by_cases hemp : n1 = "" ∨ n2 = ""
  · rw [if_pos hemp]
    constructor
    · intro hf; exact absurd hf (by decide)
    · rintro ⟨hm, -⟩
      exfalso
      rcases hemp with h | h
      · subst h
        rw [show clean_and_tokenize (lowerStr "") = [] from rfl] at hm
        simp at hm
      · subst h
        rw [show clean_and_tokenize (lowerStr "") = [] from rfl] at hm
        simp at hm
  · rw [if_neg hemp, if_neg hne]
    by_cases hz : min (clean_and_tokenize (lowerStr n1)).length
                     (clean_and_tokenize (lowerStr n2)).length = 0
    · rw [if_pos hz]
      constructor
      · intro hf; exact absurd hf (by decide)
      · rintro ⟨hm, -⟩; omega
    · rw [if_neg hz, decide_eq_true_eq]
      constructor
      · intro hthr; exact ⟨Nat.pos_of_ne_zero hz, hthr⟩
      · rintro ⟨-, hthr⟩; exact hthr

/-- Witness for C5: the threshold characterisation instantiated at a concrete
pair of non-identical names. -/
theorem spec_C5_witness :
    are_assets_similar "NVIDIA Put 200,00 $ HVB" "HVB Put 17.12.25 NVIDIA 200" = true ↔
      (0 < min (clean_and_tokenize (lowerStr "NVIDIA Put 200,00 $ HVB")).length
               (clean_and_tokenize (lowerStr "HVB Put 17.12.25 NVIDIA 200")).length ∧
        (if min (clean_and_tokenize (lowerStr "NVIDIA Put 200,00 $ HVB")).length
                (clean_and_tokenize (lowerStr "HVB Put 17.12.25 NVIDIA 200")).length < 3
         then min (clean_and_tokenize (lowerStr "NVIDIA Put 200,00 $ HVB")).length
                  (clean_and_tokenize (lowerStr "HVB Put 17.12.25 NVIDIA 200")).length
         else min (clean_and_tokenize (lowerStr "NVIDIA Put 200,00 $ HVB")).length
                  (clean_and_tokenize (lowerStr "HVB Put 17.12.25 NVIDIA 200")).length - 1)
          ≤ ((clean_and_tokenize (lowerStr "NVIDIA Put 200,00 $ HVB")).filter
               fun t => (clean_and_tokenize (lowerStr "HVB Put 17.12.25 NVIDIA 200")).contains
                          t).length) :=
  spec_C5_similarity_threshold.1 "NVIDIA Put 200,00 $ HVB" "HVB Put 17.12.25 NVIDIA 200"
    (by decide)

/-- Deleted-file names of the folder loop: every processed file is removed,
whatever its parse outcome. -/
theorem process_pdfs_deleted_aux (docs : List PdfDoc) (st : BatchResult) :
    (docs.foldl processStep st).deleted = st.deleted ++ docs.map PdfDoc.filename := by
  induction docs generalizing st with
  | nil => simp
  | cons d rest ih =>
    simp only [List.foldl_cons, List.map_cons]
    rw [ih]
    simp [processStep, List.append_assoc]

/-- The merged dict of the folder loop depends only on the merged component
of the starting state. -/
theorem process_pdfs_merged_aux (docs : List PdfDoc) (st1 st2 : BatchResult)
    (h : st1.merged = st2.merged) :
    (docs.foldl processStep st1).merged = (docs.foldl processStep st2).merged := by
  induction docs generalizing st1 st2 with
  | nil => exact h
  | cons d rest ih =>
    apply ih
    simp [processStep, h]

/-- C6, counterexample: an unrecognized document (no classifier marker) is
deleted like every other processed file — `os.remove` runs unconditionally in
the loop — so it is not retained for manual inspection. -/
theorem spec_C6_counterexample :
    extract_trade_info unknownDoc = none ∧
    (process_pdfs [unknownDoc]).deleted = ["unknown.pdf"] := by decide

/-- C6 (amended): a document the classifier rejects is skipped without
halting the batch — the merged result is as if the document were absent, and
every other document is still processed — but the document is consumed
(deleted) like all others, not retained. -/
theorem spec_C6_unrecognized_skipped_but_deleted (pre post : List PdfDoc) (d : PdfDoc)
    (hd : extract_trade_info d = none) :
    (process_pdfs (pre ++ d :: post)).merged = (process_pdfs (pre ++ post)).merged ∧
    (process_pdfs (pre ++ d :: post)).deleted
      = pre.map PdfDoc.filename ++ d.filename :: post.map PdfDoc.filename := by
  constructor
  · unfold process_pdfs
    rw [List.foldl_append, List.foldl_append, List.foldl_cons]
    apply process_pdfs_merged_aux
    simp [processStep, hd]
  · unfold process_pdfs
    rw [process_pdfs_deleted_aux]
    simp

/-- Witness for C6: the unrecognized document before a recognised one. -/
theorem spec_C6_witness :
    (process_pdfs [unknownDoc, ciSampleDoc]).merged = (process_pdfs [ciSampleDoc]).merged ∧
    (process_pdfs [unknownDoc, ciSampleDoc]).deleted = ["unknown.pdf", "cost.pdf"] := by
  have h := spec_C6_unrecognized_skipped_but_deleted [] [ciSampleDoc] unknownDoc (by decide)
  exact ⟨h.1, h.2⟩

/-- C8: when a Sell finds no open position passing the similarity check, the
sell is not applied — the ledger is returned unchanged — and the only emitted
message is the warning carrying the unmatched asset name and the trade
date. -/
theorem spec_C8_no_match_leaves_ledger_unchanged (sheet : List Row) (t : TradeRecord)
    (hsell : t.tradeType = "Sell")
    (hnone : find_buy_row sheet t.assetName t.quantity = none) :
    applyTrade sheet t = (sheet, [LogMsg.noMatch t.assetName t.date]) := by
  unfold applyTrade
  rw [hsell]
  rw [if_neg (by decide), if_pos rfl, hnone]

/-- Witness for C8 at a concrete sheet and unmatched sell. -/
theorem spec_C8_witness :
    applyTrade [closedRow, openRow] sellTradeNoMatch
      = ([closedRow, openRow],
         [LogMsg.noMatch "Completely Different Instrument" "11.03.2025"]) :=
  spec_C8_no_match_leaves_ledger_unchanged [closedRow, openRow] sellTradeNoMatch
    (by decide) (by decide)

/-- The row scan of `find_buy_row` only ever returns a row whose sell-date
cell is empty. -/
theorem find_buy_row_go_closed (assetName : String) (l : List Row) (base i : Nat)
    (h : find_buy_row_go assetName l base = some i) :
    ∃ r, l[i - base]? = some r ∧ r.colF = none ∧ base ≤ i := by
  induction l generalizing base with
  | nil => simp [find_buy_row_go] at h
  | cons r rest ih =>
    unfold find_buy_row_go at h
    by_cases hf : r.colF.isSome = true
    · rw [if_pos hf] at h
      obtain ⟨r2, hr2, hn, hle⟩ := ih (base + 1) h
      refine ⟨r2, ?_, hn, by omega⟩
      have hi : i - base = (i - (base + 1)) + 1 := by omega
      rw [hi]
      simpa using hr2
    · rw [if_neg hf] at h
      by_cases hsim : are_assets_similar (excelName r) assetName = true
      · rw [if_pos hsim] at h
        injection h with h2
        subst h2
        refine ⟨r, by simp, ?_, le_refl _⟩
        cases hcf : r.colF with
        | none => rfl
        | some v => exact absurd (by rw [hcf]; rfl) hf
      · rw [if_neg hsim] at h
        obtain ⟨r2, hr2, hn, hle⟩ := ih (base + 1) h
        refine ⟨r2, ?_, hn, by omega⟩
        have hi : i - base = (i - (base + 1)) + 1 := by omega
        rw [hi]
        simpa using hr2

/-- `find_buy_row` only selects rows whose sell-date cell is empty. -/
theorem find_buy_row_closed (sheet : List Row) (a : String) (q : Q) (i : Nat)
    (h : find_buy_row sheet a q = some i) :
    ∃ r, sheet[i]? = some r ∧ r.colF = none := by
  obtain ⟨r, hr, hn, -⟩ := find_buy_row_go_closed a sheet 0 i h
  exact ⟨r, by simpa using hr, hn⟩

/-- A cell update whose fill function leaves `F`, `G`, `H` alone preserves
those cells of every stored row. -/
theorem writeRow_get_preserved (sheet : List Row) (j : Nat) (f : Row → Row) (i : Nat) (r : Row)
    (hget : sheet[i]? = some r)
    (hf : ∀ x, (f x).colF = x.colF ∧ (f x).colG = x.colG ∧ (f x).colH = x.colH) :
    ∃ r2, (writeRow sheet j f)[i]? = some r2 ∧
      r2.colF = r.colF ∧ r2.colG = r.colG ∧ r2.colH = r.colH := by
  have hlen : i < sheet.length := (List.getElem?_eq_some_iff.mp hget).1
  unfold writeRow
  by_cases hj : j < sheet.length
  · rw [if_pos hj]
    by_cases hji : j = i
    · subst hji
      refine ⟨f (sheet.getD j blankRow), ?_, ?_, ?_, ?_⟩
      · rw [List.getElem?_set_self', hget]; rfl
      · have : sheet.getD j blankRow = r := by
          rw [List.getD_eq_getElem?_getD, hget]; rfl
        rw [(hf _).1, this]
      · have : sheet.getD j blankRow = r := by
          rw [List.getD_eq_getElem?_getD, hget]; rfl
        rw [(hf _).2.1, this]
      · have : sheet.getD j blankRow = r := by
          rw [List.getD_eq_getElem?_getD, hget]; rfl
        rw [(hf _).2.2, this]
    · exact ⟨r, by rw [List.getElem?_set_ne hji, hget], rfl, rfl, rfl⟩
  · rw [if_neg hj]
    exact ⟨r, by rw [List.getElem?_append_left hlen, hget], rfl, rfl, rfl⟩

/-- A cell update at a different index leaves a stored row unchanged. -/
theorem writeRow_get_other (sheet : List Row) (j : Nat) (f : Row → Row) (i : Nat) (r : Row)
    (hget : sheet[i]? = some r) (hne : j ≠ i) :
    (writeRow sheet j f)[i]? = some r := by
  have hlen : i < sheet.length := (List.getElem?_eq_some_iff.mp hget).1
  unfold writeRow
  by_cases hj : j < sheet.length
  · rw [if_pos hj, List.getElem?_set_ne hne, hget]
  · rw [if_neg hj, List.getElem?_append_left hlen, hget]

/-- One trade application never touches the sell cells of a closed row:
Buys only fill `A`–`D`/taxes, and a Sell's target row is open, hence distinct
from any closed row. -/
theorem applyTrade_preserves_closed (sheet : List Row) (t : TradeRecord) (i : Nat) (r : Row)
    (hget : sheet[i]? = some r) (hclosed : r.colF.isSome = true) :
    ∃ r2, (applyTrade sheet t).1[i]? = some r2 ∧
      r2.colF = r.colF ∧ r2.colG = r.colG ∧ r2.colH = r.colH := by
  unfold applyTrade
  by_cases hbuy : t.tradeType = "Buy"
  · rw [if_pos hbuy]
    exact writeRow_get_preserved sheet (firstFreeA sheet) (buyFill t) i r hget
      (fun x => ⟨rfl, rfl, rfl⟩)
  · rw [if_neg hbuy]
    by_cases hsell : t.tradeType = "Sell"
    · rw [if_pos hsell]
      cases hfind : find_buy_row sheet t.assetName t.quantity with
      | none => exact ⟨r, hget, rfl, rfl, rfl⟩
      | some j =>
        obtain ⟨rj, hrj, hrjF⟩ := find_buy_row_closed sheet t.assetName t.quantity j hfind
        have hne : j ≠ i := by
          intro hji
          subst hji
          rw [hget] at hrj
          injection hrj with h2
          rw [h2, hrjF] at hclosed
          exact absurd hclosed (by decide)
        exact ⟨r, writeRow_get_other sheet j (sellFill t (j + 2)) i r hget hne, rfl, rfl, rfl⟩
    · rw [if_neg hsell]
      exact ⟨r, hget, rfl, rfl, rfl⟩

/-- The sheet component of the `write_excel` fold ignores the message log. -/
theorem write_excel_fold_fst (trades : List TradeRecord) (st : List Row × List LogMsg) :
    (trades.foldl (fun st t => let p := applyTrade st.1 t; (p.1, st.2 ++ p.2)) st).1
      = trades.foldl (fun s t => (applyTrade s t).1) st.1 := by
  induction trades generalizing st with
  | nil => rfl
  | cons t rest ih => simp only [List.foldl_cons]; rw [ih]

/-- Closed rows keep their sell cells across any sequence of trades. -/
theorem fold_sheet_preserves_closed (trades : List TradeRecord) (sheet : List Row)
    (i : Nat) (r : Row) (hget : sheet[i]? = some r) (hclosed : r.colF.isSome = true) :
    ∃ r2, (trades.foldl (fun s t => (applyTrade s t).1) sheet)[i]? = some r2 ∧
      r2.colF = r.colF ∧ r2.colG = r.colG ∧ r2.colH = r.colH := by
  induction trades generalizing sheet r with
  | nil => exact ⟨r, hget, rfl, rfl, rfl⟩
  | cons t rest ih =>
    obtain ⟨r2, hget2, hF, hG, hH⟩ := applyTrade_preserves_closed sheet t i r hget hclosed
    have hclosed2 : r2.colF.isSome = true := by rw [hF]; exact hclosed
    obtain ⟨r3, hget3, h3F, h3G, h3H⟩ := ih (applyTrade sheet t).1 r2 hget2 hclosed2
    exact ⟨r3, hget3, by rw [h3F, hF], by rw [h3G, hG], by rw [h3H, hH]⟩

/-- C7: every candidate scan of `find_buy_row` skips rows whose sell-date
cell is present — a returned row is always open — and consequently no
sequence of ledger operations ever overwrites the sell-date, sell-quantity
or sell-price cells of a closed position. -/
theorem spec_C7_closed_positions_never_rematched :
    (∀ (sheet : List Row) (a : String) (q : Q) (i : Nat),
        find_buy_row sheet a q = some i → ∃ r, sheet[i]? = some r ∧ r.colF = none) ∧
    (∀ (sheet : List Row) (trades : List TradeRecord) (i : Nat) (r : Row),
        sheet[i]? = some r → r.colF.isSome = true →
        ∃ r2, (write_excel sheet trades).1[i]? = some r2 ∧
          r2.colF = r.colF ∧ r2.colG = r.colG ∧ r2.colH = r.colH) := by
  refine ⟨find_buy_row_closed, fun sheet trades i r hget hclosed => ?_⟩
  unfold write_excel
  rw [write_excel_fold_fst]
  exact fold_sheet_preserves_closed trades sheet i r hget hclosed

/-- Witness for C7: a sheet with one closed and one open row; the scan picks
the open row, and the closed row's sell cells survive the sell. -/
theorem spec_C7_witness :
    (∃ r, [closedRow, openRow][1]? = some r ∧ r.colF = none) ∧
    (∃ r2, (write_excel [closedRow, openRow] [sellTradeSample]).1[0]? = some r2 ∧
      r2.colF = closedRow.colF ∧ r2.colG = closedRow.colG ∧ r2.colH = closedRow.colH) := by
  constructor
  · exact spec_C7_closed_positions_never_rematched.1 [closedRow, openRow]
      sellTradeSample.assetName sellTradeSample.quantity 1 (by decide)
  · exact spec_C7_closed_positions_never_rematched.2 [closedRow, openRow] [sellTradeSample]
      0 closedRow (by decide) (by decide)

/-- The `sort_algo` key order is transitive. -/
theorem sortLe_trans (a b c : TradeRecord) (h1 : sortLe a b = true) (h2 : sortLe b c = true) :
    sortLe a c = true := by
  unfold sortLe at *
  simp only [Bool.or_eq_true, Bool.and_eq_true, decide_eq_true_eq] at *
  omega

/-- The `sort_algo` key order is total. -/
theorem sortLe_total (a b : TradeRecord) : (sortLe a b || sortLe b a) = true := by
  unfold sortLe
  simp only [Bool.or_eq_true, Bool.and_eq_true, decide_eq_true_eq]
  omega

/-- On well-formed dates the numeric sort key decomposes into the calendar
triple with day and month below 100. -/
theorem wf_date_decomp (s : String) (h : wfGermanDate s = true) :
    dateKeyNum s = (calParts s).1 * 10000 + (calParts s).2.1 * 100 + (calParts s).2.2 ∧
    (calParts s).2.2 < 100 ∧ (calParts s).2.1 < 100 := by
  unfold wfGermanDate at h
  unfold dateKeyNum calParts
  cases hsp : splitOnChar '.' s with
  | nil => rw [hsp] at h; exact Bool.noConfusion h
  | cons d rest =>
    cases rest with
    | nil => rw [hsp] at h; exact Bool.noConfusion h
    | cons m rest2 =>
      cases rest2 with
      | nil => rw [hsp] at h; exact Bool.noConfusion h
      | cons y rest3 =>
        cases rest3 with
        | cons e rest4 => rw [hsp] at h; exact Bool.noConfusion h
        | nil =>
          rw [hsp] at h
          simp only [Bool.and_eq_true, decide_eq_true_eq] at h
          exact ⟨rfl, h.1.2, h.2⟩

/-- On well-formed dates the key order implies calendar order, and equal
dates never order a Sell before a Buy. -/
theorem sortLe_implies_cal (a b : TradeRecord)
    (ha : wfGermanDate a.date = true) (hb : wfGermanDate b.date = true)
    (hle : sortLe a b = true) :
    calLe (calParts a.date) (calParts b.date) ∧
    (calParts a.date = calParts b.date →
      ¬ (a.tradeType = "Sell" ∧ b.tradeType = "Buy")) := by
  obtain ⟨hka, hda, hma⟩ := wf_date_decomp a.date ha
  obtain ⟨hkb, hdb, hmb⟩ := wf_date_decomp b.date hb
  unfold sortLe at hle
  simp only [Bool.or_eq_true, Bool.and_eq_true, decide_eq_true_eq] at hle
  constructor
  · unfold calLe
    rcases hle with h | ⟨heq, -⟩ <;> omega
  · intro hcal hcontra
    obtain ⟨hsellA, hbuyB⟩ := hcontra
    have hpa : typePrio a = 1 := by simp [typePrio, hsellA]
    have hpb : typePrio b = 0 := by simp [typePrio, hbuyB]
    have e1 : (calParts a.date).1 = (calParts b.date).1 := by rw [hcal]
    have e2 : (calParts a.date).2.1 = (calParts b.date).2.1 := by rw [hcal]
    have e3 : (calParts a.date).2.2 = (calParts b.date).2.2 := by rw [hcal]
    rcases hle with h | ⟨-, hprio⟩
    · omega
    · rw [hpa, hpb] at hprio
      omega

/-- C9: the sequencer's output is a permutation of the merged list that is
pairwise ordered by calendar date ascending, and for two trades carrying the
same calendar date a Sell never precedes a Buy — equivalently, every Buy of a
date precedes every Sell of that date. -/
theorem spec_C9_sequencer_order (ts : List TradeRecord)
    (hwf : ∀ t ∈ ts, wfGermanDate t.date = true) :
    (sort_algo_list ts).Perm ts ∧
    (sort_algo_list ts).Pairwise (fun a b =>
      calLe (calParts a.date) (calParts b.date) ∧
      (calParts a.date = calParts b.date →
        ¬ (a.tradeType = "Sell" ∧ b.tradeType = "Buy"))) := by
  have hperm : (sort_algo_list ts).Perm ts := List.mergeSort_perm ts sortLe
  refine ⟨hperm, ?_⟩
  have hsorted := List.sorted_mergeSort sortLe_trans sortLe_total ts
  have hwf2 : ∀ t ∈ ts.mergeSort sortLe, wfGermanDate t.date = true := fun t ht =>
    hwf t (hperm.mem_iff.mp ht)
  exact hsorted.imp_of_mem fun {x y} hx hy hle =>
    sortLe_implies_cal x y (hwf2 x hx) (hwf2 y hy) hle

/-- Witness for C9: a Sell and a Buy carrying the same date. -/
theorem spec_C9_witness :
    (sort_algo_list [sellTradeSample, buyTradeSample]).Perm
        [sellTradeSample, buyTradeSample] ∧
    (sort_algo_list [sellTradeSample, buyTradeSample]).Pairwise (fun a b =>
      calLe (calParts a.date) (calParts b.date) ∧
      (calParts a.date = calParts b.date →
        ¬ (a.tradeType = "Sell" ∧ b.tradeType = "Buy"))) :=
  spec_C9_sequencer_order [sellTradeSample, buyTradeSample] (by decide)
